import Mathlib

/-!
Verification of the AICTE-Setu application workflow engine.

The definitions below are a shallow embedding of the Express route handlers in
the server routes module (referred to as part_004).  Database tables become
Lean lists of rows, drizzle update/insert statements become list maps and
appends, and timestamps are integers (seconds).  Route handlers that can
answer 404 are embedded as functions into Except; handlers with no failure
path are pure state transformers.
-/

namespace AicteSetu

/-- Application workflow statuses occurring in the server code
(draft, submitted, scrutiny, document_verification, under_evaluation,
approved, rejected). -/
inductive AppStatus
  | draft
  | submitted
  | scrutiny
  | document_verification
  | under_evaluation
  | approved
  | rejected
  deriving DecidableEq, Repr

/-- Timeline stage statuses (pending, current, completed). -/
inductive StageStatus
  | pending
  | current
  | completed
  deriving DecidableEq, Repr

/-- A row of the applications table, with the columns the routes read or
write.  Timestamps are integer seconds; submittedAt is null until set. -/
structure Application where
  id : Nat
  applicationNumber : String
  applicationType : String
  institutionId : Nat
  institutionName : String
  address : String
  state : String
  courseName : Option String
  intake : Option Int
  description : Option String
  status : AppStatus
  submittedAt : Option Int
  createdAt : Int
  updatedAt : Int
  deriving DecidableEq, Repr

/-- A row of the timelineStages table. -/
structure StageRow where
  applicationId : Nat
  title : String
  description : String
  status : StageStatus
  completedAt : Option Int
  deriving DecidableEq, Repr

/-- A row of the evaluatorAssignments table. -/
structure AssignmentRow where
  id : Nat
  applicationId : Nat
  evaluatorId : Nat
  priority : String
  deadline : Option Int
  completedAt : Option Int
  deriving DecidableEq, Repr

/-- A row of the evaluations table. -/
structure EvalRow where
  assignmentId : Nat
  applicationId : Nat
  evaluatorId : Nat
  score : Int
  comments : String
  recommendation : String
  deriving DecidableEq, Repr

/-- A row of the documents table (the columns the tracker endpoint reads). -/
structure DocumentRow where
  applicationId : Nat
  category : String
  status : String
  deriving DecidableEq, Repr

/-- The database state: the four tables the workflow routes touch. -/
structure DB where
  apps : List Application
  stages : List StageRow
  assignments : List AssignmentRow
  evaluations : List EvalRow
  deriving DecidableEq, Repr

/-- Typed failure of a route: the only typed failure the embedded routes
produce is the 404 "not found" answer. -/
inductive ApiError
  | notFound
  deriving DecidableEq, Repr

/-- findFirst on the applications table by application number
(db.query.applications.findFirst with eq on applicationNumber). -/
def findByNumber (db : DB) (num : String) : Option Application :=
  db.apps.find? (fun a => a.applicationNumber = num)

/-- The six timeline stage rows inserted by POST /api/applications
(timelineStagesData in part_004): first stage current, the rest pending. -/
def createdStages (appId : Nat) : List StageRow :=
  [ ⟨appId, "Application Submitted", "Application created", .current, none⟩,
    ⟨appId, "Initial Scrutiny", "Awaiting scrutiny", .pending, none⟩,
    ⟨appId, "Document Verification", "Awaiting verification", .pending, none⟩,
    ⟨appId, "Evaluator Assignment", "Awaiting evaluator", .pending, none⟩,
    ⟨appId, "Site Visit & Evaluation", "Pending site visit", .pending, none⟩,
    ⟨appId, "Final Approval", "Pending final review", .pending, none⟩ ]

/-- Arguments of POST /api/applications after validation, together with the
row id the database generates and the clock reading. -/
structure CreateArgs where
  id : Nat
  applicationNumber : String
  applicationType : String
  institutionId : Nat
  institutionName : String
  address : String
  state : String
  courseName : Option String
  intake : Option Int
  description : Option String
  now : Int
  deriving DecidableEq, Repr

/-- POST /api/applications: inserts a draft application with no submission
timestamp and its six timeline stages. -/
def createApplication (db : DB) (args : CreateArgs) : DB :=
  { db with
    apps := db.apps ++
      [⟨args.id, args.applicationNumber, args.applicationType,
        args.institutionId, args.institutionName, args.address, args.state,
        args.courseName, args.intake, args.description, .draft, none,
        args.now, args.now⟩],
    stages := db.stages ++ createdStages args.id }

/-- POST /api/applications/:id/submit: finds the application by number (404
when absent), then unconditionally sets status submitted and stamps
submittedAt and updatedAt, marks the stage titled "Application Submitted"
completed and the stage titled "Initial Scrutiny" current.  The handler
performs no check of the current status. -/
def submitApp (db : DB) (num : String) (now : Int) : Except ApiError DB :=
  match findByNumber db num with
  | none => .error .notFound
  | some application =>
    .ok { db with
      apps := db.apps.map (fun a =>
        if a.id = application.id then
          { a with status := .submitted, submittedAt := some now,
                   updatedAt := now }
        else a),
      stages := ((db.stages.map (fun s =>
          if s.applicationId = application.id ∧
             s.title = "Application Submitted" then
            { s with status := .completed, completedAt := some now }
          else s)).map (fun s =>
          if s.applicationId = application.id ∧
             s.title = "Initial Scrutiny" then
            { s with status := .current }
          else s)) }

/-- PUT /api/admin/applications/:id/status: finds the application by number
(404 when absent) and sets the requested status and updatedAt, with no
transition validation and no other write. -/
def setStatusApp (db : DB) (num : String) (newStatus : AppStatus)
    (now : Int) : Except ApiError DB :=
  match findByNumber db num with
  | none => .error .notFound
  | some application =>
    .ok { db with
      apps := db.apps.map (fun a =>
        if a.id = application.id then
          { a with status := newStatus, updatedAt := now }
        else a) }

/-- POST /api/admin/assign-evaluator: inserts an assignment row (priority
defaulting to "medium", open completion) and sets the application status to
under_evaluation; no existence check and no stage write. -/
def assignEvaluator (db : DB) (newId applicationId evaluatorId : Nat)
    (priority : Option String) (deadline : Option Int) (now : Int) : DB :=
  { db with
    assignments := db.assignments ++
      [⟨newId, applicationId, evaluatorId, priority.getD "medium",
        deadline, none⟩],
    apps := db.apps.map (fun a =>
      if a.id = applicationId then
        { a with status := .under_evaluation, updatedAt := now }
      else a) }

/-- POST /api/evaluations: inserts the evaluation row and sets completedAt
to the current time on every assignment with the given id.  The handler
performs no existence check on the assignment, touches no application row
and no timeline stage. -/
def recordEvaluation (db : DB) (assignmentId applicationId evaluatorId : Nat)
    (score : Int) (comments recommendation : String) (now : Int) : DB :=
  { db with
    evaluations := db.evaluations ++
      [⟨assignmentId, applicationId, evaluatorId, score, comments,
        recommendation⟩],
    assignments := db.assignments.map (fun a =>
      if a.id = assignmentId then { a with completedAt := some now } else a) }

/-- The timeline stage rows of one application, in table order. -/
def stagesOf (db : DB) (appId : Nat) : List StageRow :=
  db.stages.filter (fun s => s.applicationId = appId)

/-- Number of stages of a list with status current. -/
def currentCount (l : List StageRow) : Nat :=
  (l.filter (fun s => s.status = .current)).length

/-- The stage rows of an application after the submit handler has run on the
engine-created rows: first stage completed with its completion time, second
stage current, the rest pending. -/
def submittedStages (appId : Nat) (t : Int) : List StageRow :=
  [ ⟨appId, "Application Submitted", "Application created", .completed, some t⟩,
    ⟨appId, "Initial Scrutiny", "Awaiting scrutiny", .current, none⟩,
    ⟨appId, "Document Verification", "Awaiting verification", .pending, none⟩,
    ⟨appId, "Evaluator Assignment", "Awaiting evaluator", .pending, none⟩,
    ⟨appId, "Site Visit & Evaluation", "Pending site visit", .pending, none⟩,
    ⟨appId, "Final Approval", "Pending final review", .pending, none⟩ ]

/-- Count of documents with status "approved" (GET /api/applications/tracker). -/
def approvedDocs (docs : List DocumentRow) : Nat :=
  (docs.filter (fun d => d.status = "approved")).length

/-- Count of documents with status "rejected". -/
def rejectedDocs (docs : List DocumentRow) : Nat :=
  (docs.filter (fun d => d.status = "rejected")).length

/-- Count of documents with status "pending". -/
def pendingDocs (docs : List DocumentRow) : Nat :=
  (docs.filter (fun d => d.status = "pending")).length

/-- Total document count of the application. -/
def totalDocs (docs : List DocumentRow) : Nat := docs.length

/-- The evaluationProgress value computed by GET /api/applications/tracker:
Math.round of (approved + rejected) / total times 100 when the application
has documents, 0 otherwise.  Math.round on nonnegative input is the floor of
the input plus one half, which is the Mathlib round. -/
def evaluationProgress (docs : List DocumentRow) : ℤ :=
  if 0 < totalDocs docs then
    round ((((approvedDocs docs : ℚ) + (rejectedDocs docs : ℚ)) /
      (totalDocs docs : ℚ)) * 100)
  else 0

/-- The rows GET /api/admin/dashboard averages over: applications with
status approved and a non-null submission timestamp (updatedAt is a
non-nullable column in this model, its null check in the query is vacuous). -/
def approvedWithTimes (apps : List Application) : List Application :=
  apps.filter (fun a => a.status = AppStatus.approved ∧ a.submittedAt.isSome = true)

/-- The per-row expression EXTRACT(EPOCH FROM (updatedAt - submittedAt)) / 86400
of the dashboard query: processing time of one application in days. -/
def rowDays (a : Application) : ℚ :=
  (((a.updatedAt - a.submittedAt.getD 0 : Int)) : ℚ) / 86400

/-- Sum of a list of rationals. -/
def sumQ : List ℚ → ℚ
  | [] => 0
  | x :: xs => x + sumQ xs

/-- SQL AVG: null on the empty set, otherwise the mean. -/
def avgQ (l : List ℚ) : Option ℚ :=
  if l.length = 0 then none else some (sumQ l / (l.length : ℚ))

/-- The Postgres cast of a numeric value to int: rounding to the nearest
integer with halves away from zero. -/
def pgCastInt (q : ℚ) : ℤ :=
  if 0 ≤ q then ⌊q + 1 / 2⌋ else -⌊-q + 1 / 2⌋

/-- The avgDays value of GET /api/admin/dashboard:
COALESCE(AVG(EXTRACT(EPOCH FROM (updatedAt - submittedAt)) / 86400), 0)::int
over approved applications with non-null timestamps. -/
def avgProcessingDays (apps : List Application) : ℤ :=
  pgCastInt ((avgQ ((approvedWithTimes apps).map rowDays)).getD 0)

/-- Stated from the claim wording for C9 (for comparison with the code): the
mean of (updatedAt − submittedAt) over approved applications only, in days,
floored to an integer, and 0 when no approved application exists. -/
def specAvgFloorDays (apps : List Application) : ℤ :=
  if (approvedWithTimes apps).length = 0 then 0
  else ⌊sumQ ((approvedWithTimes apps).map rowDays) /
    ((approvedWithTimes apps).length : ℚ)⌋

/-- The mean processing time in days as the claim words it, before any
conversion to an integer: 0 when no approved application exists. -/
def specMeanDays (apps : List Application) : ℚ :=
  if (approvedWithTimes apps).length = 0 then 0
  else sumQ ((approvedWithTimes apps).map rowDays) /
    ((approvedWithTimes apps).length : ℚ)

/-- One engine operation, with the identifiers and clock readings the
database layer supplies. -/
inductive EngineOp
  | create (args : CreateArgs)
  | submit (num : String) (now : Int)
  | setStatus (num : String) (st : AppStatus) (now : Int)
  | assign (newId applicationId evaluatorId : Nat) (priority : Option String)
      (deadline : Option Int) (now : Int)
  | record (assignmentId applicationId evaluatorId : Nat) (score : Int)
      (comments recommendation : String) (now : Int)
  deriving DecidableEq, Repr

/-- Apply one engine operation to the database; a failed operation (404)
leaves the database unchanged. -/
def step (db : DB) : EngineOp → DB
  | .create args => createApplication db args
  | .submit num now =>
      match submitApp db num now with
      | .ok db' => db'
      | .error _ => db
  | .setStatus num st now =>
      match setStatusApp db num st now with
      | .ok db' => db'
      | .error _ => db
  | .assign newId applicationId evaluatorId p d now =>
      assignEvaluator db newId applicationId evaluatorId p d now
  | .record aId applicationId evaluatorId sc c r now =>
      recordEvaluation db aId applicationId evaluatorId sc c r now

/-- Apply a sequence of engine operations in order. -/
def run (db : DB) : List EngineOp → DB
  | [] => db
  | op :: ops => run (step db op) ops

/-- The application row id an operation creates, if any (the database
generates ids, so a fresh creation never reuses an existing id). -/
def opCreatesId : EngineOp → Option Nat
  | .create args => some args.id
  | _ => none

/-- Invariant on the stage rows of one engine-created application: they are
exactly the engine-created rows, or the rows as rewritten by the submit
handler at some time. -/
def StageInv (db : DB) (appId : Nat) : Prop :=
  stagesOf db appId = createdStages appId ∨
    ∃ t, stagesOf db appId = submittedStages appId t

/-- Filtering by application id commutes with mapping a row transformer that
does not change the application id. -/
lemma filter_map_appId (f : StageRow → StageRow)
    (hf : ∀ s, (f s).applicationId = s.applicationId) (X : Nat)
    (l : List StageRow) :
    (l.map f).filter (fun s => s.applicationId = X) =
      (l.filter (fun s => s.applicationId = X)).map f := by
  induction l with
  | nil => rfl
  | cons s l ih =>
    by_cases h : s.applicationId = X
    · simp [List.filter_cons, List.map_cons, hf, h, ih]
    · simp [List.filter_cons, List.map_cons, hf, h, ih]

/-- A create with a different application id leaves the stage rows of this
application unchanged. -/
lemma stagesOf_create_ne (db : DB) (args : CreateArgs) (X : Nat)
    (h : args.id ≠ X) :
    stagesOf (createApplication db args) X = stagesOf db X := by
  simp [stagesOf, createApplication, createdStages, List.filter_append, h]

/-- Creating an application with an id fresh for the stages table yields
exactly the engine-created stage rows for that id. -/
lemma stagesOf_create_fresh (db : DB) (args : CreateArgs)
    (h : stagesOf db args.id = []) :
    stagesOf (createApplication db args) args.id = createdStages args.id := by
  simp only [stagesOf, createApplication, List.filter_append]
  simp only [stagesOf] at h
  rw [h]
  simp [createdStages]

/-- Each engine operation preserves the stage invariant of an engine-created
application, as long as a creation never reuses its row id. -/
lemma stageInv_step (db : DB) (X : Nat) (op : EngineOp)
    (hop : opCreatesId op ≠ some X) (h : StageInv db X) :
    StageInv (step db op) X := by
  cases op with
  | create args =>
    have hid : args.id ≠ X := fun e => hop (by simp [opCreatesId, e])
    unfold StageInv at h ⊢
    rwa [show step db (.create args) = createApplication db args from rfl,
      stagesOf_create_ne db args X hid]
  | setStatus num st now =>
    have : stagesOf (step db (.setStatus num st now)) X = stagesOf db X := by
      simp only [step, setStatusApp]
      cases findByNumber db num <;> rfl
    unfold StageInv at h ⊢
    rwa [this]
  | assign newId applicationId evaluatorId p d now =>
    unfold StageInv at h ⊢
    exact h
  | record aId applicationId evaluatorId sc c r now =>
    unfold StageInv at h ⊢
    exact h
  | submit num now =>
    cases hfind : findByNumber db num with
    | none =>
      have : step db (.submit num now) = db := by
        simp [step, submitApp, hfind]
      rwa [this]
    | some application =>
      have hstep : stagesOf (step db (.submit num now)) X =
          ((stagesOf db X).map (fun s =>
            if s.applicationId = application.id ∧
               s.title = "Application Submitted" then
              { s with status := .completed, completedAt := some now }
            else s)).map (fun s =>
            if s.applicationId = application.id ∧
               s.title = "Initial Scrutiny" then
              { s with status := .current }
            else s) := by
        have h1 : ∀ s : StageRow,
            ((if s.applicationId = application.id ∧
                s.title = "Application Submitted" then
              { s with status := StageStatus.completed,
                       completedAt := some now }
            else s) : StageRow).applicationId = s.applicationId := by
          intro s
          split <;> rfl
        have h2 : ∀ s : StageRow,
            ((if s.applicationId = application.id ∧
                s.title = "Initial Scrutiny" then
              { s with status := StageStatus.current }
            else s) : StageRow).applicationId = s.applicationId := by
          intro s
          split <;> rfl
        simp only [step, submitApp, hfind, stagesOf]
        rw [filter_map_appId _ h2, filter_map_appId _ h1]
      by_cases happ : application.id = X
      · unfold StageInv at h ⊢
        rcases h with h | ⟨t, h⟩
        · right
          refine ⟨now, ?_⟩
          rw [hstep, h]
          simp [createdStages, submittedStages, happ]
        · right
          refine ⟨now, ?_⟩
          rw [hstep, h]
          simp [createdStages, submittedStages, happ]
      · have hXa : ¬ (X = application.id) := fun e => happ e.symm
        unfold StageInv at h ⊢
        rcases h with h | ⟨t, h⟩
        · left
          rw [hstep, h]
          simp [createdStages, hXa]
        · right
          refine ⟨t, ?_⟩
          rw [hstep, h]
          simp [submittedStages, hXa]

/-- A run of engine operations preserves the stage invariant of an
engine-created application. -/
lemma stageInv_run (db : DB) (X : Nat) (ops : List EngineOp)
    (hops : ∀ op ∈ ops, opCreatesId op ≠ some X) (h : StageInv db X) :
    StageInv (run db ops) X := by
  induction ops generalizing db with
  | nil => exact h
  | cons op ops ih =>
    exact ih (step db op) (fun o ho => hops o (List.mem_cons_of_mem _ ho))
      (stageInv_step db X op (hops op (List.mem_cons_self _ _)) h)

/-- The engine-created stage rows have exactly one current stage. -/
lemma currentCount_createdStages (X : Nat) :
    currentCount (createdStages X) = 1 := by
  simp [currentCount, createdStages]

/-- The stage rows after submit have exactly one current stage. -/
lemma currentCount_submittedStages (X : Nat) (t : Int) :
    currentCount (submittedStages X t) = 1 := by
  simp [currentCount, submittedStages]

/-- The first stage transformer of the submit handler keeps the application
id of every row. -/
lemma submitMapOne_keeps_appId (targetId : Nat) (now : Int) :
    ∀ s : StageRow,
      ((if s.applicationId = targetId ∧ s.title = "Application Submitted" then
          { s with status := StageStatus.completed, completedAt := some now }
        else s) : StageRow).applicationId = s.applicationId := by
  intro s
  split <;> rfl

/-- The second stage transformer of the submit handler keeps the application
id of every row. -/
lemma submitMapTwo_keeps_appId (targetId : Nat) :
    ∀ s : StageRow,
      ((if s.applicationId = targetId ∧ s.title = "Initial Scrutiny" then
          { s with status := StageStatus.current }
        else s) : StageRow).applicationId = s.applicationId := by
  intro s
  split <;> rfl

/-- A mapped update that misses every element of a list leaves it unchanged. -/
lemma map_miss_eq_self {α : Type} (f : α → α) :
    ∀ l : List α, (∀ b ∈ l, f b = b) → l.map f = l := by
  intro l
  induction l with
  | nil => intro _; rfl
  | cons b l ih =>
    intro h
    rw [List.map_cons, h b (List.mem_cons_self _ _),
      ih (fun x hx => h x (List.mem_cons_of_mem _ hx))]

/-- Concrete creation arguments used by the witnesses. -/
def argsW : CreateArgs :=
  ⟨1, "APP-2025-000001", "new-course", 7, "Delhi Institute of Technology",
   "123 Tech Street, New Delhi", "Delhi", some "B.Tech in AI", some 60,
   some "New AI program", 0⟩

/-- An application sitting in status under_evaluation. -/
def appUE : Application :=
  ⟨1, "AICTE-2025-001", "new-course", 7, "Delhi Institute of Technology",
   "123 Tech Street, New Delhi", "Delhi", some "B.Tech in AI", some 60,
   none, .under_evaluation, some 100, 0, 100⟩

/-- An open assignment of application 1 to evaluator 2. -/
def asgOpen : AssignmentRow := ⟨10, 1, 2, "medium", none, none⟩

/-- Database with one under-evaluation application, its submitted-shape
stages and one open assignment. -/
def dbUE : DB := ⟨[appUE], submittedStages 1 50, [asgOpen], []⟩

/-- Claim C3: for every application created by the engine and every sequence
of engine operations applied afterwards, at most one of its timeline stages
has status current after each operation (row ids are database generated, so
no later create reuses the id of this application). -/
theorem C3_atMostOneCurrentStage (db0 : DB) (args : CreateArgs)
    (ops : List EngineOp)
    (hfresh : stagesOf db0 args.id = [])
    (hids : ∀ op ∈ ops, opCreatesId op ≠ some args.id) :
    currentCount (stagesOf (run (createApplication db0 args) ops) args.id) ≤ 1 := by
  have h0 : StageInv (createApplication db0 args) args.id :=
    Or.inl (stagesOf_create_fresh db0 args hfresh)
  have hinv := stageInv_run _ args.id ops hids h0
  rcases hinv with h | ⟨t, h⟩
  · rw [h, currentCount_createdStages]
  · rw [h, currentCount_submittedStages]

/-- Witness for C3 at a concrete database and operation sequence covering
create, submit, evaluator assignment, evaluation recording and an admin
status set. -/
theorem C3_atMostOneCurrentStage_witness :
    currentCount (stagesOf (run (createApplication ⟨[], [], [], []⟩ argsW)
      [EngineOp.submit "APP-2025-000001" 5,
       EngineOp.assign 10 1 2 none none 6,
       EngineOp.record 10 1 2 85 "ok" "Approve" 7,
       EngineOp.setStatus "APP-2025-000001" AppStatus.approved 8]) 1) ≤ 1 :=
  C3_atMostOneCurrentStage ⟨[], [], [], []⟩ argsW _ rfl (by decide)

/-- Claim C1 fails on the code: recording an Approve evaluation on the
assignment of an under-evaluation application leaves the application status
under_evaluation rather than approved, and leaves the pending timeline
stages pending rather than completed. -/
theorem C1_counterexample :
    ((recordEvaluation dbUE 10 1 2 85 "ok" "Approve" 200).apps.find?
      (fun a => a.id = 1)).map Application.status =
        some AppStatus.under_evaluation ∧
    AppStatus.under_evaluation ≠ AppStatus.approved ∧
    (stagesOf (recordEvaluation dbUE 10 1 2 85 "ok" "Approve" 200) 1).map
      StageRow.status =
      [StageStatus.completed, StageStatus.current, StageStatus.pending,
       StageStatus.pending, StageStatus.pending, StageStatus.pending] := by
  decide

/-- Claim C1 amended: recordEvaluation with recommendation Approve on an
assignment of an under-evaluation application marks that assignment
completed and records the evaluation, but changes no application row and no
timeline stage: the application stays under_evaluation and is never moved to
approved by this operation (the terminal transition exists only through the
admin status override). -/
theorem C1_recordEvaluationFrame (db : DB) (X : Application)
    (A : AssignmentRow) (score : Int) (comments : String) (now : Int)
    (hX : X ∈ db.apps) (hA : A ∈ db.assignments)
    (hAX : A.applicationId = X.id)
    (hst : X.status = AppStatus.under_evaluation) :
    (recordEvaluation db A.id X.id A.evaluatorId score comments
      "Approve" now).apps = db.apps ∧
    (recordEvaluation db A.id X.id A.evaluatorId score comments
      "Approve" now).stages = db.stages ∧
    (recordEvaluation db A.id X.id A.evaluatorId score comments
      "Approve" now).evaluations =
      db.evaluations ++ [⟨A.id, X.id, A.evaluatorId, score, comments,
        "Approve"⟩] ∧
    ∀ a ∈ (recordEvaluation db A.id X.id A.evaluatorId score comments
        "Approve" now).assignments,
      a.id = A.id → a.completedAt = some now := by
  refine ⟨rfl, rfl, rfl, ?_⟩
  intro a ha haid
  simp only [recordEvaluation] at ha
  rcases List.mem_map.mp ha with ⟨b, hb, hba⟩
  by_cases h : b.id = A.id
  · subst hba
    simp [h]
  · subst hba
    simp [h] at haid

/-- Witness for C1 amended at the concrete under-evaluation database. -/
theorem C1_recordEvaluationFrame_witness :
    (recordEvaluation dbUE 10 1 2 85 "ok" "Approve" 200).apps = dbUE.apps :=
  (C1_recordEvaluationFrame dbUE appUE asgOpen 85 "ok" 200 (by decide)
    (by decide) rfl rfl).1

/-- Claim C2 fails on the code: the submit handler performs no draft check,
so submitting an application created and already submitted once succeeds a
second time instead of failing with an invalid-state error. -/
theorem C2_counterexample :
    (submitApp (createApplication ⟨[], [], [], []⟩ argsW)
      "APP-2025-000001" 5).isOk = true ∧
    (findByNumber (step (createApplication ⟨[], [], [], []⟩ argsW)
      (EngineOp.submit "APP-2025-000001" 5)) "APP-2025-000001").map
      Application.status = some AppStatus.submitted ∧
    (submitApp (step (createApplication ⟨[], [], [], []⟩ argsW)
      (EngineOp.submit "APP-2025-000001" 5)) "APP-2025-000001" 9).isOk =
      true := by
  decide

/-- Claim C2 amended: submit fails with the not-found error exactly when no
application carries the number; whenever one exists the call succeeds
whatever the current status — in particular a second submit succeeds again,
re-stamping the status and submission time, instead of failing with an
invalid-state error. -/
theorem C2_submitNoDraftCheck (db : DB) (num : String) (t : Int) :
    (submitApp db num t = .error .notFound ↔ findByNumber db num = none) ∧
    (∀ X, findByNumber db num = some X →
      ∃ db', submitApp db num t = .ok db' ∧
        ∀ a ∈ db'.apps, a.id = X.id →
          a.status = AppStatus.submitted ∧ a.submittedAt = some t) := by
  constructor
  · cases hfind : findByNumber db num <;> simp [submitApp, hfind]
  · intro X hfind
    unfold submitApp
    rw [hfind]
    refine ⟨_, rfl, ?_⟩
    intro a ha haid
    rcases List.mem_map.mp ha with ⟨b, hb, hba⟩
    by_cases h : b.id = X.id
    · subst hba
      simp [h]
    · subst hba
      simp [h] at haid

/-- Witness for C2 amended: on the empty database the lookup misses and
submit answers the not-found error. -/
theorem C2_submitNoDraftCheck_witness :
    submitApp (⟨[], [], [], []⟩ : DB) "NOPE" 3 = .error .notFound :=
  (C2_submitNoDraftCheck ⟨[], [], [], []⟩ "NOPE" 3).1.mpr rfl

/-- Claim C4: submitting an existing draft application that carries the
engine-created stage list marks stage 0 (Application Submitted) completed
and stage 1 (Initial Scrutiny) current, sets the submission timestamp and
sets the application status submitted. -/
theorem C4_submitDraft (db : DB) (num : String) (X : Application) (t : Int)
    (hfind : findByNumber db num = some X)
    (hdraft : X.status = AppStatus.draft)
    (hstages : stagesOf db X.id = createdStages X.id) :
    ∃ db', submitApp db num t = .ok db' ∧
      stagesOf db' X.id = submittedStages X.id t ∧
      (stagesOf db' X.id).map StageRow.status =
        [StageStatus.completed, StageStatus.current, StageStatus.pending,
         StageStatus.pending, StageStatus.pending, StageStatus.pending] ∧
      ∀ a ∈ db'.apps, a.id = X.id →
        a.status = AppStatus.submitted ∧ a.submittedAt = some t := by
  unfold submitApp
  rw [hfind]
  refine ⟨_, rfl, ?_, ?_, ?_⟩
  · show stagesOf { db with apps := _, stages := _ } X.id = _
    simp only [stagesOf]
    rw [filter_map_appId _ (submitMapTwo_keeps_appId X.id),
      filter_map_appId _ (submitMapOne_keeps_appId X.id t)]
    have : db.stages.filter (fun s => s.applicationId = X.id) =
        createdStages X.id := hstages
    rw [this]
    simp [createdStages, submittedStages]
  · show (stagesOf { db with apps := _, stages := _ } X.id).map
      StageRow.status = _
    simp only [stagesOf]
    rw [filter_map_appId _ (submitMapTwo_keeps_appId X.id),
      filter_map_appId _ (submitMapOne_keeps_appId X.id t)]
    have : db.stages.filter (fun s => s.applicationId = X.id) =
        createdStages X.id := hstages
    rw [this]
    simp [createdStages]
  · intro a ha haid
    rcases List.mem_map.mp ha with ⟨b, hb, hba⟩
    by_cases h : b.id = X.id
    · subst hba
      simp [h]
    · subst hba
      simp [h] at haid

/-- Witness for C4: submitting the freshly created draft application
succeeds. -/
theorem C4_submitDraft_witness :
    (submitApp (createApplication ⟨[], [], [], []⟩ argsW)
      "APP-2025-000001" 5).isOk = true := by
  obtain ⟨db', hok, -, -, -⟩ :=
    C4_submitDraft (createApplication ⟨[], [], [], []⟩ argsW)
      "APP-2025-000001" (createApplication ⟨[], [], [], []⟩ argsW).apps[0]
      5 (by decide) (by decide) (by decide)
  rw [hok]
  rfl

/-- The five-document example of the claim: three approved, one rejected,
one pending. -/
def exampleDocs : List DocumentRow :=
  [⟨1, "Institution Registration", "approved"⟩,
   ⟨1, "Building Plan", "approved"⟩,
   ⟨1, "Faculty Details", "approved"⟩,
   ⟨1, "Infrastructure Report", "rejected"⟩,
   ⟨1, "Financial Statements", "pending"⟩]

/-- Claim C5: the tracker progress equals round(100 (approved + rejected) /
total), is 0 for an application with no documents, and the example with five
documents (three approved, one rejected, one pending) yields 80 with counts
3, 1 and 1. -/
theorem C5_progressFormula :
    (∀ docs : List DocumentRow,
      evaluationProgress docs =
        if totalDocs docs = 0 then 0
        else round ((100 * ((approvedDocs docs : ℚ) +
          (rejectedDocs docs : ℚ))) / (totalDocs docs : ℚ))) ∧
    evaluationProgress exampleDocs = 80 ∧
    approvedDocs exampleDocs = 3 ∧ rejectedDocs exampleDocs = 1 ∧
    pendingDocs exampleDocs = 1 := by
  refine ⟨?_, ?_, by decide, by decide, by decide⟩
  · intro docs
    unfold evaluationProgress
    rcases Nat.eq_zero_or_pos (totalDocs docs) with h | h
    · simp [h]
    · rw [if_pos h, if_neg (Nat.pos_iff_ne_zero.mp h)]
      congr 1
      ring
  · have ha : approvedDocs exampleDocs = 3 := by decide
    have hr : rejectedDocs exampleDocs = 1 := by decide
    have ht : totalDocs exampleDocs = 5 := by decide
    unfold evaluationProgress
    rw [ha, hr, ht]
    norm_num [round_eq]

/-- Claim C6: the admin status override succeeds for every existing
application and every status value with no transition validation; it writes
exactly the requested status and the update timestamp on that application,
changes no other field of it, changes no other application, and changes no
timeline stage, assignment or evaluation. -/
theorem C6_setStatusFrame (db : DB) (num : String) (X : Application)
    (st : AppStatus) (t : Int)
    (hfind : findByNumber db num = some X) :
    ∃ db', setStatusApp db num st t = .ok db' ∧
      db'.stages = db.stages ∧
      db'.assignments = db.assignments ∧
      db'.evaluations = db.evaluations ∧
      List.Forall₂ (fun (a a' : Application) =>
        (a.id = X.id →
          a'.status = st ∧ a'.updatedAt = t ∧
          a'.id = a.id ∧ a'.applicationNumber = a.applicationNumber ∧
          a'.applicationType = a.applicationType ∧
          a'.institutionId = a.institutionId ∧
          a'.institutionName = a.institutionName ∧
          a'.address = a.address ∧ a'.state = a.state ∧
          a'.courseName = a.courseName ∧ a'.intake = a.intake ∧
          a'.description = a.description ∧
          a'.submittedAt = a.submittedAt ∧ a'.createdAt = a.createdAt) ∧
        (a.id ≠ X.id → a' = a)) db.apps db'.apps := by
  unfold setStatusApp
  rw [hfind]
  refine ⟨_, rfl, rfl, rfl, rfl, ?_⟩
  rw [List.forall₂_map_right_iff, List.forall₂_same]
  intro a ha
  by_cases h : a.id = X.id
  · exact ⟨fun _ => by simp [h], fun hne => absurd h hne⟩
  · exact ⟨fun he => absurd he h, fun _ => by simp [h]⟩

/-- Witness for C6: forcing the freshly created draft application straight
to approved succeeds. -/
theorem C6_setStatusFrame_witness :
    (setStatusApp (createApplication ⟨[], [], [], []⟩ argsW)
      "APP-2025-000001" AppStatus.approved 9).isOk = true := by
  obtain ⟨db', hok, -⟩ :=
    C6_setStatusFrame (createApplication ⟨[], [], [], []⟩ argsW)
      "APP-2025-000001" (createApplication ⟨[], [], [], []⟩ argsW).apps[0]
      AppStatus.approved 9 (by decide)
  rw [hok]
  rfl

/-- An application sitting in the terminal status approved. -/
def appApproved : Application :=
  ⟨1, "AICTE-2025-004", "eoa", 7, "Delhi Institute of Technology",
   "123 Tech Street, New Delhi", "Delhi", some "B.Tech in ME", some 120,
   some "Extension of Approval", .approved, some 100, 0, 150⟩

/-- Database with one approved (terminal) application. -/
def dbApproved : DB := ⟨[appApproved], submittedStages 1 50, [], []⟩

/-- Claim C7 fails on the code: submit on an approved application succeeds
and moves the status back to submitted, so a terminal status is left through
a guided operation, not only through the admin override. -/
theorem C7_counterexample :
    ((submitApp dbApproved "AICTE-2025-004" 200).toOption.bind
      (fun db' => (findByNumber db' "AICTE-2025-004").map
        Application.status)) = some AppStatus.submitted ∧
    AppStatus.submitted ≠ AppStatus.approved := by
  decide

/-- Claim C7 amended: from a terminal status, recordEvaluation indeed leaves
every application status unchanged, but submit and assignEvaluator carry no
terminal-status guard: they overwrite the status with submitted and with
under_evaluation respectively, so a terminal status can also be left through
these guided operations, not only through the admin override. -/
theorem C7_terminalNotGuarded (db : DB) (num : String) (X : Application)
    (t : Int) (newId evaluatorId aId appIdArg evId : Nat) (sc : Int)
    (c r : String)
    (hfind : findByNumber db num = some X)
    (hterm : X.status = AppStatus.approved ∨ X.status = AppStatus.rejected) :
    (recordEvaluation db aId appIdArg evId sc c r t).apps = db.apps ∧
    (∃ db', submitApp db num t = .ok db' ∧
      ∀ a ∈ db'.apps, a.id = X.id → a.status = AppStatus.submitted) ∧
    (∀ a ∈ (assignEvaluator db newId X.id evaluatorId none none t).apps,
      a.id = X.id → a.status = AppStatus.under_evaluation) := by
  refine ⟨rfl, ?_, ?_⟩
  · unfold submitApp
    rw [hfind]
    refine ⟨_, rfl, ?_⟩
    intro a ha haid
    rcases List.mem_map.mp ha with ⟨b, hb, hba⟩
    by_cases h : b.id = X.id
    · subst hba
      simp [h]
    · subst hba
      simp [h] at haid
  · intro a ha haid
    simp only [assignEvaluator] at ha
    rcases List.mem_map.mp ha with ⟨b, hb, hba⟩
    by_cases h : b.id = X.id
    · subst hba
      simp [h]
    · subst hba
      simp [h] at haid

/-- Witness for C7 amended at the concrete approved application. -/
theorem C7_terminalNotGuarded_witness :
    (recordEvaluation dbApproved 10 1 2 60 "c" "Approve" 200).apps =
      dbApproved.apps :=
  (C7_terminalNotGuarded dbApproved "AICTE-2025-004" appApproved 200
    11 2 10 1 2 60 "c" "Approve" (by decide) (Or.inl rfl)).1

/-- Claim C8 fails on the code: the evaluation handler never looks the
assignment up; with no assignment 99 in the database the call still records
the evaluation row (and completes nothing) instead of failing with a
not-found error. -/
theorem C8_counterexample :
    (recordEvaluation ⟨[appUE], submittedStages 1 50, [], []⟩
      99 1 2 70 "c" "Approve" 300).evaluations =
      [⟨99, 1, 2, 70, "c", "Approve"⟩] ∧
    (recordEvaluation ⟨[appUE], submittedStages 1 50, [], []⟩
      99 1 2 70 "c" "Approve" 300).assignments = [] := by
  decide

/-- Claim C8 amended: recordEvaluation has no failure path and no existence
check; when no assignment carries the given id it still appends the
evaluation row, leaves the assignments table unchanged (no assignment is
completed) and touches no application. -/
theorem C8_noExistenceCheck (db : DB) (aId appIdArg evId : Nat) (sc : Int)
    (c r : String) (t : Int)
    (hmissing : ∀ b ∈ db.assignments, b.id ≠ aId) :
    (recordEvaluation db aId appIdArg evId sc c r t).evaluations =
      db.evaluations ++ [⟨aId, appIdArg, evId, sc, c, r⟩] ∧
    (recordEvaluation db aId appIdArg evId sc c r t).assignments =
      db.assignments ∧
    (recordEvaluation db aId appIdArg evId sc c r t).apps = db.apps := by
  refine ⟨rfl, ?_, rfl⟩
  show db.assignments.map _ = db.assignments
  refine map_miss_eq_self _ db.assignments ?_
  intro b hb
  simp [hmissing b hb]

/-- Witness for C8 amended on a database with no assignment at all. -/
theorem C8_noExistenceCheck_witness :
    (recordEvaluation ⟨[appUE], submittedStages 1 50, [], []⟩
      99 1 2 70 "c" "Approve" 300).assignments = [] :=
  (C8_noExistenceCheck ⟨[appUE], submittedStages 1 50, [], []⟩
    99 1 2 70 "c" "Approve" 300 (by decide)).2.1

/-- An approved application whose processing time is one and a half days
(129600 seconds between submission and last update). -/
def appHalfDay : Application :=
  ⟨1, "AICTE-2025-010", "new-course", 7, "Delhi Institute of Technology",
   "123 Tech Street, New Delhi", "Delhi", none, none, none, .approved,
   some 0, 0, 129600⟩

/-- Claim C9 fails on the code: the dashboard casts the mean to int with
Postgres rounding, not flooring; at a processing time of one and a half days
the code reports 2 while the floored mean of the claim is 1. -/
theorem C9_counterexample :
    avgProcessingDays [appHalfDay] = 2 ∧
    specAvgFloorDays [appHalfDay] = 1 ∧ (2 : ℤ) ≠ (1 : ℤ) := by
  have hrows : approvedWithTimes [appHalfDay] = [appHalfDay] := by decide
  have hdays : rowDays appHalfDay = 3 / 2 := by
    norm_num [rowDays, appHalfDay]
  refine ⟨?_, ?_, by decide⟩
  · unfold avgProcessingDays
    rw [hrows]
    simp only [List.map_cons, List.map_nil, hdays]
    norm_num [avgQ, sumQ, pgCastInt]
  · unfold specAvgFloorDays
    rw [hrows]
    simp only [List.map_cons, List.map_nil, hdays, List.length_cons,
      List.length_nil]
    norm_num [sumQ]

/-- Claim C9 amended: the dashboard average equals the mean of
(updatedAt − submittedAt) over approved applications with a submission
timestamp, in days, converted to an integer by rounding to the nearest value
with halves away from zero (the Postgres int cast) — not by flooring — and
it equals 0 when no such application exists. -/
theorem C9_avgIsRounded (apps : List Application) :
    avgProcessingDays apps = pgCastInt (specMeanDays apps) ∧
    (approvedWithTimes apps = [] → avgProcessingDays apps = 0) := by
  constructor
  · unfold avgProcessingDays specMeanDays avgQ
    rcases Nat.eq_zero_or_pos (approvedWithTimes apps).length with h | h
    · simp [h, List.length_map]
    · rw [if_neg (by simpa using Nat.pos_iff_ne_zero.mp h),
        if_neg (Nat.pos_iff_ne_zero.mp h)]
      simp [List.length_map]
  · intro h
    unfold avgProcessingDays avgQ
    rw [h]
    norm_num [pgCastInt]

/-- Witness for C9 amended on the empty database: no approved application,
so the dashboard reports 0 days. -/
theorem C9_avgIsRounded_witness : avgProcessingDays [] = 0 :=
  (C9_avgIsRounded []).2 rfl

/-- An assignment already completed at time 5. -/
def asgDone : AssignmentRow := ⟨10, 1, 2, "low", none, some 5⟩

/-- Claim C10 fails on the code: re-running the completion update on an
already completed assignment overwrites the stored completion timestamp with
the new clock reading instead of leaving it unchanged. -/
theorem C10_counterexample :
    ((recordEvaluation ⟨[appUE], [], [asgDone], []⟩
      10 1 2 60 "again" "Approve" 9).assignments.find?
      (fun b => b.id = 10)).map AssignmentRow.completedAt =
      some (some 9) ∧
    some (9 : Int) ≠ some (5 : Int) := by
  decide

/-- Claim C10 amended: re-completing an already completed assignment is not
an error, but it is not a no-op either: the completion timestamp of every
assignment with the given id is overwritten with the current time. -/
theorem C10_completionOverwrites (db : DB) (B : AssignmentRow)
    (appIdArg evId : Nat) (sc : Int) (c r : String) (t0 t : Int)
    (hB : B ∈ db.assignments) (hdone : B.completedAt = some t0) :
    ∀ a ∈ (recordEvaluation db B.id appIdArg evId sc c r t).assignments,
      a.id = B.id → a.completedAt = some t := by
  intro a ha haid
  simp only [recordEvaluation] at ha
  rcases List.mem_map.mp ha with ⟨b, hb, hba⟩
  by_cases h : b.id = B.id
  · subst hba
    simp [h]
  · subst hba
    simp [h] at haid

/-- Witness for C10 amended at the already completed concrete assignment:
the stored timestamp after re-completion reads the new time 9. -/
theorem C10_completionOverwrites_witness :
    ((recordEvaluation ⟨[appUE], [], [asgDone], []⟩
      10 1 2 60 "again" "Approve" 9).assignments.get
      ⟨0, by decide⟩).completedAt = some 9 :=
  C10_completionOverwrites ⟨[appUE], [], [asgDone], []⟩ asgDone
    1 2 60 "again" "Approve" 5 9 (by decide) rfl
    ((recordEvaluation ⟨[appUE], [], [asgDone], []⟩
      10 1 2 60 "again" "Approve" 9).assignments.get ⟨0, by decide⟩)
    (by decide) (by decide)

end AicteSetu
